import Mathlib

/-!
Shallow embedding of the `ML_MODEL` class of
`CommissionWorkAccountingMain/main.py` (the incremental, change-driven
prediction cache), together with theorems settling the specification
claims about it.

Modelling choices:
* The Data Store (`jobs` table) is a list of rows `(id, job_type,
  hours_worked, pay)`; `pay` is `Option Rat` (`none` = SQL NULL).
* Machine floats are modelled as `Rat`.  The transcendental functions
  `np.log` / `np.exp` and the fitted sklearn pipeline's per-row
  prediction are abstracted into an environment `MLEnv`; a fitted model
  (`DecisionTreeRegressor(random_state=42)` inside a deterministic
  pipeline) is a deterministic function of its training data, so the
  model artifact is embedded as that training data.
* `pandas.Series.quantile` uses linear interpolation on the sorted
  values; `quantileLin` reproduces that.
* The two on-disk artifacts (`modelConfig.json`, `model.pkl`) are
  `Option` fields of the state.  A pkl file can also be present but
  unreadable (`joblib.load` raises on it), giving `PklContent.corrupt`.
* Every Data Store round-trip is recorded in an effect list `DbFetch`,
  so the cache-hit / re-fetch claims are statable.
* Uncaught Python exceptions are `PyErr`: the `KeyError` of the final
  cache lookup in `predict`, the `AttributeError` of calling
  `None.predict`, and the exception `joblib.load` raises on a corrupt
  artifact.  `self.model.predict` on a fetched row set is embedded as a
  pointwise map over the rows.
-/

attribute [local semireducible] Rat.mul Rat.inv Rat.add Rat.sub

namespace CWA

/-- Contents of `modelConfig.json`: the two persisted counters. -/
structure TrainingState where
  dbChangeCounter : Nat
  lastTrainedRowCount : Nat
deriving DecidableEq

/-- One row of the `jobs` table, restricted to the columns the
`ML_MODEL` class reads. -/
structure Row where
  id : Int
  jobType : String
  hoursWorked : Rat
  pay : Option Rat
deriving DecidableEq

/-- A fitted model artifact.  The pipeline (one-hot encoder, standard
scaler, `DecisionTreeRegressor(random_state=42)`) is a deterministic
function of the rows it was fitted on, so the artifact is embedded as
that training data. -/
structure Model where
  trainFeatures : List (String × Rat)
  trainLabels : List Rat
deriving DecidableEq

/-- What the `model.pkl` file can hold: a loadable artifact, or bytes
`joblib.load` raises on. -/
inductive PklContent where
  | good (m : Model)
  | corrupt
deriving DecidableEq

/-- Numeric environment: `np.log`, `np.exp`, and the prediction function
of a fitted pipeline on one feature row `(job_type, hours_worked)`. -/
structure MLEnv where
  logF : Rat → Rat
  expF : Rat → Rat
  predictF : Model → String × Rat → Rat

/-- The mutable state of an `ML_MODEL` object plus its two files:
`self.model`, `self.predictionCache`, `modelConfig.json`, `model.pkl`. -/
structure MLState where
  model : Option Model
  cache : Int → Option Rat
  configFile : Option TrainingState
  pklFile : Option PklContent

/-- Uncaught Python exceptions of the embedded methods. -/
inductive PyErr where
  | keyErr (i : Int)
  | noModelErr
  | loadErr
deriving DecidableEq

/-- One Data Store round-trip, as issued by the three private helpers. -/
inductive DbFetch where
  | fetchAllFeaturesLabels
  | fetchAllIdFeatures
  | fetchFeaturesByIDs (ids : List Int)
deriving DecidableEq

/-- Result of a `predict` call: the returned mapping (or the uncaught
exception), the state afterwards, and the Data Store fetches issued. -/
structure POut where
  result : Except PyErr (List (Int × Rat))
  state : MLState
  fetches : List DbFetch

/-- The state of a freshly constructed `ML_MODEL` with no files on
disk: no model, empty cache. -/
def mlInit : MLState := ⟨none, fun _ => none, none, none⟩

/-- Insert a value into a sorted list of rationals. -/
def insertR (x : Rat) : List Rat → List Rat
  | [] => [x]
  | y :: ys => if x ≤ y then x :: y :: ys else y :: insertR x ys

/-- Sort a list of rationals ascending (the order `pandas` quantiles
are computed over). -/
def sortRats : List Rat → List Rat
  | [] => []
  | x :: xs => insertR x (sortRats xs)

/-- `pandas.Series.quantile(q)` with the default linear interpolation:
position `q * (n - 1)` into the sorted values, linearly interpolating
between the two neighbouring order statistics. -/
def quantileLin (q : Rat) (xs : List Rat) : Rat :=
  let s := sortRats xs
  let n := s.length
  if n = 0 then 0
  else
    let pos : Rat := q * ((n : Rat) - 1)
    let i : Nat := pos.floor.toNat
    let lo := s.getD i 0
    let hi := s.getD (i + 1) lo
    lo + (pos - (i : Rat)) * (hi - lo)

/-- First preprocessing stage of `_train` (main.py 244-249): drop rows
whose `Pay` is NULL or exactly 0, and pair each survivor with its
log-label `np.log(pay)`.  Triples are `(job_type, hours_worked,
log_pay)`. -/
def prelim (env : MLEnv) (db : List Row) : List (String × Rat × Rat) :=
  db.filterMap fun r =>
    match r.pay with
    | none => none
    | some p => if p = 0 then none else some (r.jobType, r.hoursWorked, env.logF p)

/-- Second preprocessing stage of `_train` (main.py 251-258): Tukey
outlier exclusion on the log-label, keeping rows with log-label inside
`[Q1 - 1.5 IQR, Q3 + 1.5 IQR]` (both bounds inclusive). -/
def trainKept (env : MLEnv) (db : List Row) : List (String × Rat × Rat) :=
  let logs := (prelim env db).map (fun t => t.2.2)
  let q1 := quantileLin (1/4) logs
  let q3 := quantileLin (3/4) logs
  let iqr := q3 - q1
  let lowerBound := q1 - 3/2 * iqr
  let upperBound := q3 + 3/2 * iqr
  (prelim env db).filter fun t =>
    decide (lowerBound ≤ t.2.2) && decide (t.2.2 ≤ upperBound)

/-- Fit the pipeline on the filtered rows (main.py 272-293): the
artifact is the training data itself (the pipeline is a deterministic
function of it). -/
def fitModel (kept : List (String × Rat × Rat)) : Model :=
  ⟨kept.map (fun t => (t.1, t.2.1)), kept.map (fun t => t.2.2)⟩

/-- `ML_MODEL._train` (main.py 216-302), state part.  The features and
label are fetched, preprocessed; if zero rows remain the method returns
before touching any state; otherwise the model is fitted, dumped to
`model.pkl`, and `modelConfig.json` is overwritten with
`{dbChangeCounter: 0, lastTrainedRowCount: len(label)}`. -/
def runTrain (env : MLEnv) (db : List Row) (s : MLState) : MLState :=
  if trainKept env db = [] then s
  else
    { s with
      model := some (fitModel (trainKept env db)),
      pklFile := some (PklContent.good (fitModel (trainKept env db))),
      configFile := some ⟨0, (trainKept env db).length⟩ }

/-- Write one cache entry (`self.predictionCache[id] = predictedPay`). -/
def cacheWrite (c : Int → Option Rat) (i : Int) (v : Rat) : Int → Option Rat :=
  fun j => if j = i then some v else c j

/-- Write a list of cache entries in order (the caching loops of
main.py 397-400 and 448-451). -/
def cacheWriteAll (c : Int → Option Rat) (l : List (Int × Rat)) : Int → Option Rat :=
  l.foldl (fun acc p => cacheWrite acc p.1 p.2) c

/-- The `(id, exp(model.predict(features)))` pairs computed for a row
set (main.py 391-392). -/
def predPairs (env : MLEnv) (m : Model) (rows : List Row) : List (Int × Rat) :=
  rows.map fun r => (r.id, env.expF (env.predictF m (r.jobType, r.hoursWorked)))

/-- `ML_MODEL._predictAndCacheEverything` (main.py 357-400): fetch every
`(id, job_type, hours_worked)`; if the table is empty return without
touching the cache; otherwise predict all rows, clear the cache and
cache the fresh predictions.  `None.predict` is an `AttributeError`. -/
def cacheEverything (env : MLEnv) (db : List Row) (s : MLState) :
    Except PyErr MLState :=
  if db = [] then .ok s
  else
    match s.model with
    | none => .error PyErr.noModelErr
    | some m => .ok { s with cache := cacheWriteAll (fun _ => none) (predPairs env m db) }

/-- `ML_MODEL._predictAndCacheDirtyIDs` (main.py 402-451): guard on an
empty argument, fetch features for exactly `dirtyIDs` (`WHERE id IN`),
predict them, and cache them without clearing anything. -/
def cacheDirty (env : MLEnv) (dirtyIDs : List Int) (db : List Row) (s : MLState) :
    Except PyErr MLState :=
  if dirtyIDs = [] then .ok s
  else
    let rows := db.filter fun r => decide (r.id ∈ dirtyIDs)
    match s.model with
    | none => .error PyErr.noModelErr
    | some m => .ok { s with cache := cacheWriteAll s.cache (predPairs env m rows) }

/-- `ML_MODEL._readModelConfigFilepath` (main.py 306-324): return the
parsed config; if the file is absent, create it zeroed and return the
zeroed config. -/
def readConfig (s : MLState) : TrainingState × MLState :=
  match s.configFile with
  | some c => (c, s)
  | none => (⟨0, 0⟩, { s with configFile := some ⟨0, 0⟩ })

/-- The config `predict` decides on: the file's contents, or the zeroed
config the read creates on a cold start. -/
def configOf (s : MLState) : TrainingState :=
  s.configFile.getD ⟨0, 0⟩

/-- `ML_MODEL._calculateRetrainLoadFactor` (main.py 337-355), value
part: `dbChangeCounter / lastTrainedRowCount`, or `0.0` on division by
zero. -/
def loadFactorOf (s : MLState) : Rat :=
  if (configOf s).lastTrainedRowCount > 0 then
    ((configOf s).dbChangeCounter : Rat) / ((configOf s).lastTrainedRowCount : Rat)
  else 0

/-- `_calculateRetrainLoadFactor` with its side effect: reading the
config creates the file when it is absent. -/
def calcLoadFactor (s : MLState) : Rat × MLState :=
  let p := readConfig s
  (if p.1.lastTrainedRowCount > 0 then
    (p.1.dbChangeCounter : Rat) / (p.1.lastTrainedRowCount : Rat)
   else 0, p.2)

/-- `ML_MODEL.incrementDbChangeCounter` (main.py 175-186). -/
def incrementDbChangeCounter (s : MLState) (x : Nat) : MLState :=
  let p := readConfig s
  { p.2 with configFile := some ⟨p.1.dbChangeCounter + x, p.1.lastTrainedRowCount⟩ }

/-- `ML_MODEL.markDirtyIDs` (main.py 188-196): pop each id from the
cache. -/
def markDirtyIDs (s : MLState) (ids : List Int) : MLState :=
  { s with cache := ids.foldl (fun c i => fun j => if j = i then none else c j) s.cache }

/-- `ML_MODEL.reset` (main.py 198-212). -/
def resetModel (_s : MLState) : MLState := mlInit

/-- The final loop of `predict` (main.py 168-173): look every requested
id up in the cache, raising `KeyError` on the first absent one. -/
def lookupAll (c : Int → Option Rat) : List Int → Except Int (List (Int × Rat))
  | [] => .ok []
  | i :: rest =>
    match c i with
    | none => .error i
    | some v => (lookupAll c rest).map (fun r => (i, v) :: r)

/-- Assemble a `POut` from the outcome of one of the three cases of
`predict` followed by the final cache lookup. -/
def finishP (ids : List Int) (sErr : MLState) :
    Except PyErr MLState × List DbFetch → POut
  | (.error e, fs) => ⟨.error e, sErr, fs⟩
  | (.ok s2, fs) =>
    match lookupAll s2.cache ids with
    | .error i => ⟨.error (PyErr.keyErr i), s2, fs⟩
    | .ok r => ⟨.ok r, s2, fs⟩

/-- The three-way case split of `predict` (main.py 136-164), given the
already computed load factor and the state after the config read.
Returns the state outcome and the Data Store fetches issued. -/
def pathStep (env : MLEnv) (ids : List Int) (db : List Row) (lf : Rat)
    (s1 : MLState) : Except PyErr MLState × List DbFetch :=
  if lf > 1/5 then
    (cacheEverything env db (runTrain env db s1),
     [DbFetch.fetchAllFeaturesLabels, DbFetch.fetchAllIdFeatures])
  else if s1.model = none then
    match s1.pklFile with
    | some (PklContent.good m) =>
        (cacheEverything env db { s1 with model := some m },
         [DbFetch.fetchAllIdFeatures])
    | some PklContent.corrupt => (.error PyErr.loadErr, [])
    | none =>
        (cacheEverything env db (runTrain env db s1),
         [DbFetch.fetchAllFeaturesLabels, DbFetch.fetchAllIdFeatures])
  else
    let dirty := ids.filter fun i => (s1.cache i).isNone
    if dirty = [] then (.ok s1, [])
    else (cacheDirty env dirty db s1, [DbFetch.fetchFeaturesByIDs dirty])

/-- `ML_MODEL.predict` (main.py 97-173). -/
def predict (env : MLEnv) (ids : List Int) (db : List Row) (s : MLState) : POut :=
  if ids = [] then ⟨.ok [], s, []⟩
  else
    let p := calcLoadFactor s
    finishP ids p.2 (pathStep env ids db p.1 p.2)

/-- Last-write-wins reading of a write list: what `cacheWriteAll`
leaves at a key. -/
def lastWrite : List (Int × Rat) → Int → Option Rat
  | [], _ => none
  | p :: rest, i =>
    match lastWrite rest i with
    | some v => some v
    | none => if i = p.1 then some p.2 else none

instance exceptDecEq {ε α : Type} [DecidableEq ε] [DecidableEq α] :
    DecidableEq (Except ε α)
  | .ok a, .ok b =>
    if h : a = b then .isTrue (by rw [h]) else .isFalse (by intro hc; cases hc; exact h rfl)
  | .error a, .error b =>
    if h : a = b then .isTrue (by rw [h]) else .isFalse (by intro hc; cases hc; exact h rfl)
  | .ok _, .error _ => .isFalse (by intro hc; cases hc)
  | .error _, .ok _ => .isFalse (by intro hc; cases hc)

/-- The state after `_calculateRetrainLoadFactor`: reading the config
file creates it zeroed when absent, so afterwards it always holds
`configOf s`. -/
def withConfig (s : MLState) : MLState :=
  { s with configFile := some (configOf s) }

/-- Whether the pkl file holds a loadable artifact. -/
def isGoodPkl : Option PklContent → Bool
  | some (PklContent.good _) => true
  | _ => false

/-- The precondition under which the path `predict` takes ends with a
fitted model in memory: on the retrain path the filtered training set
is non-empty or a model was already in memory; on the cold-start path a
loadable artifact exists, or no artifact exists and the filtered
training set is non-empty; the incremental path needs nothing extra. -/
def modelAvailable (env : MLEnv) (db : List Row) (s : MLState) : Prop :=
  if loadFactorOf s > 1/5 then trainKept env db ≠ [] ∨ s.model ≠ none
  else if s.model = none then
    isGoodPkl s.pklFile = true ∨ (s.pklFile = none ∧ trainKept env db ≠ [])
  else True

/-- A concrete numeric environment for witnesses: log and exp are the
identity and a fitted model predicts the hours worked. -/
def envC : MLEnv := ⟨fun q => q, fun q => q, fun _ p => p.2⟩

/-- A numeric environment whose log maps the label 10000 to `b` and
every other label to `a`; with `a < b` this covers every possible
behaviour of `np.log` on the labels 10 and 10000. -/
def mkLogEnv (a b : Rat) : MLEnv :=
  ⟨fun p => if p = 10000 then b else a, fun q => q, fun _ _ => 0⟩

/-- The outlier fixture of the spec: five rows with labels
`[10, 10, 10, 10, 10000]`. -/
def dbOutlier : List Row :=
  [⟨1, "A", 1, some 10⟩, ⟨2, "A", 1, some 10⟩, ⟨3, "A", 1, some 10⟩,
   ⟨4, "A", 1, some 10⟩, ⟨5, "A", 1, some 10000⟩]

/-! ## General lemmas about the embedded operations -/

theorem trainKept_nil (env : MLEnv) : trainKept env [] = [] := rfl

theorem trainKept_ne_nil_db (env : MLEnv) (db : List Row)
    (h : trainKept env db ≠ []) : db ≠ [] := by
  intro hdb
  rw [hdb] at h
  exact h (trainKept_nil env)

theorem runTrain_empty (env : MLEnv) (db : List Row) (s : MLState)
    (h : trainKept env db = []) : runTrain env db s = s := by
  simp [runTrain, h]

theorem runTrain_pos (env : MLEnv) (db : List Row) (s : MLState)
    (h : trainKept env db ≠ []) :
    runTrain env db s =
      { s with
        model := some (fitModel (trainKept env db)),
        pklFile := some (PklContent.good (fitModel (trainKept env db))),
        configFile := some ⟨0, (trainKept env db).length⟩ } := by
  simp [runTrain, h]

theorem configOf_withConfig (s : MLState) : configOf (withConfig s) = configOf s := by
  simp [withConfig, configOf]

theorem loadFactorOf_withConfig (s : MLState) :
    loadFactorOf (withConfig s) = loadFactorOf s := by
  simp [loadFactorOf, configOf_withConfig]

theorem withConfig_model (s : MLState) : (withConfig s).model = s.model := rfl

theorem withConfig_cache (s : MLState) : (withConfig s).cache = s.cache := rfl

theorem withConfig_pklFile (s : MLState) : (withConfig s).pklFile = s.pklFile := rfl

theorem withConfig_of_some (s : MLState) (c : TrainingState)
    (h : s.configFile = some c) : withConfig s = s := by
  cases s
  simp_all [withConfig, configOf]

theorem calcLoadFactor_eq (s : MLState) :
    calcLoadFactor s = (loadFactorOf s, withConfig s) := by
  cases s with
  | mk model cache configFile pklFile =>
    cases configFile <;>
      simp [calcLoadFactor, readConfig, loadFactorOf, configOf, withConfig]

theorem predict_nil (env : MLEnv) (db : List Row) (s : MLState) :
    predict env [] db s = ⟨.ok [], s, []⟩ := rfl

theorem predict_cons (env : MLEnv) (ids : List Int) (db : List Row) (s : MLState)
    (h : ids ≠ []) :
    predict env ids db s =
      finishP ids (withConfig s)
        (pathStep env ids db (loadFactorOf s) (withConfig s)) := by
  simp [predict, h, calcLoadFactor_eq]

theorem pathStep_retrain (env : MLEnv) (ids : List Int) (db : List Row)
    (lf : Rat) (s1 : MLState) (h : lf > 1/5) :
    pathStep env ids db lf s1 =
      (cacheEverything env db (runTrain env db s1),
       [DbFetch.fetchAllFeaturesLabels, DbFetch.fetchAllIdFeatures]) := by
  unfold pathStep
  rw [if_pos h]

theorem pathStep_coldLoad (env : MLEnv) (ids : List Int) (db : List Row)
    (lf : Rat) (s1 : MLState) (m : Model) (h : ¬ lf > 1/5)
    (hm : s1.model = none) (hp : s1.pklFile = some (PklContent.good m)) :
    pathStep env ids db lf s1 =
      (cacheEverything env db { s1 with model := some m },
       [DbFetch.fetchAllIdFeatures]) := by
  unfold pathStep
  rw [if_neg h, hm, if_pos rfl, hp]

theorem pathStep_coldCorrupt (env : MLEnv) (ids : List Int) (db : List Row)
    (lf : Rat) (s1 : MLState) (h : ¬ lf > 1/5)
    (hm : s1.model = none) (hp : s1.pklFile = some PklContent.corrupt) :
    pathStep env ids db lf s1 = (.error PyErr.loadErr, []) := by
  unfold pathStep
  rw [if_neg h, hm, if_pos rfl, hp]

theorem pathStep_coldTrain (env : MLEnv) (ids : List Int) (db : List Row)
    (lf : Rat) (s1 : MLState) (h : ¬ lf > 1/5)
    (hm : s1.model = none) (hp : s1.pklFile = none) :
    pathStep env ids db lf s1 =
      (cacheEverything env db (runTrain env db s1),
       [DbFetch.fetchAllFeaturesLabels, DbFetch.fetchAllIdFeatures]) := by
  unfold pathStep
  rw [if_neg h, hm, if_pos rfl, hp]

theorem pathStep_incr (env : MLEnv) (ids : List Int) (db : List Row)
    (lf : Rat) (s1 : MLState) (m : Model) (h : ¬ lf > 1/5)
    (hm : s1.model = some m) :
    pathStep env ids db lf s1 =
      (if ids.filter (fun i => (s1.cache i).isNone) = [] then (.ok s1, [])
       else (cacheDirty env (ids.filter fun i => (s1.cache i).isNone) db s1,
             [DbFetch.fetchFeaturesByIDs (ids.filter fun i => (s1.cache i).isNone)])) := by
  unfold pathStep
  rw [if_neg h, hm, if_neg (by simp : ¬ (some m = (none : Option Model)))]

theorem cacheWriteAll_apply (l : List (Int × Rat)) :
    ∀ (c : Int → Option Rat) (i : Int),
      cacheWriteAll c l i = (lastWrite l i).elim (c i) some := by
  induction l with
  | nil => intro c i; rfl
  | cons p rest ih =>
    intro c i
    have h1 : cacheWriteAll c (p :: rest) = cacheWriteAll (cacheWrite c p.1 p.2) rest := rfl
    rw [h1, ih]
    cases hres : lastWrite rest i with
    | some v => simp [lastWrite, hres]
    | none =>
      by_cases hip : i = p.1
      · subst hip
        simp [lastWrite, hres, cacheWrite]
      · simp [lastWrite, hres, cacheWrite, hip]

theorem lastWrite_isSome_iff (i : Int) : ∀ (l : List (Int × Rat)),
    (lastWrite l i).isSome = true ↔ i ∈ l.map Prod.fst := by
  intro l
  induction l with
  | nil => simp [lastWrite]
  | cons p rest ih =>
    cases hres : lastWrite rest i with
    | some v =>
      simp only [lastWrite, hres]
      simp only [hres] at ih
      simp [← ih]
    | none =>
      simp only [lastWrite, hres]
      simp only [hres] at ih
      by_cases hip : i = p.1 <;> simp [hip, ← ih]

theorem lastWrite_eq_none (i : Int) (l : List (Int × Rat))
    (h : i ∉ l.map Prod.fst) : lastWrite l i = none := by
  have h2 := (lastWrite_isSome_iff i l).not.mpr h
  exact Option.not_isSome_iff_eq_none.mp h2

theorem cacheWriteAll_apply_of_not_mem (l : List (Int × Rat))
    (c : Int → Option Rat) (i : Int) (h : i ∉ l.map Prod.fst) :
    cacheWriteAll c l i = c i := by
  rw [cacheWriteAll_apply, lastWrite_eq_none i l h]
  rfl

theorem cacheWriteAll_isSome_of_mem (l : List (Int × Rat))
    (c : Int → Option Rat) (i : Int) (h : i ∈ l.map Prod.fst) :
    (cacheWriteAll c l i).isSome = true := by
  rw [cacheWriteAll_apply]
  cases hres : lastWrite l i with
  | some v => simp
  | none =>
    rw [← lastWrite_isSome_iff i l] at h
    rw [hres] at h
    simp at h

theorem cacheWriteAll_isSome_of_isSome (l : List (Int × Rat))
    (c : Int → Option Rat) (i : Int) (h : (c i).isSome = true) :
    (cacheWriteAll c l i).isSome = true := by
  rw [cacheWriteAll_apply]
  cases hres : lastWrite l i with
  | some v => simp
  | none => simpa using h

theorem predPairs_map_fst (env : MLEnv) (m : Model) (rows : List Row) :
    (predPairs env m rows).map Prod.fst = rows.map Row.id := by
  simp [predPairs]

theorem lookupAll_ok_of (c : Int → Option Rat) (ids : List Int)
    (h : ∀ i ∈ ids, (c i).isSome = true) :
    ∃ r, lookupAll c ids = .ok r ∧ r.map Prod.fst = ids ∧
      ∀ p ∈ r, c p.1 = some p.2 := by
  induction ids with
  | nil => exact ⟨[], rfl, rfl, by simp⟩
  | cons i rest ih =>
    have hi := h i (by simp)
    obtain ⟨v, hv⟩ := Option.isSome_iff_exists.mp hi
    obtain ⟨r, hr, hfst, hval⟩ := ih (fun j hj => h j (by simp [hj]))
    refine ⟨(i, v) :: r, ?_, ?_, ?_⟩
    · simp [lookupAll, hv, hr, Except.map]
    · simp [hfst]
    · intro p hp
      rcases List.mem_cons.mp hp with hp1 | hp2
      · rw [hp1]; exact hv
      · exact hval p hp2

theorem lookupAll_covers (c : Int → Option Rat) : ∀ (ids : List Int) (r : List (Int × Rat)),
    lookupAll c ids = .ok r → ∀ i ∈ ids, (c i).isSome = true := by
  intro ids
  induction ids with
  | nil => simp
  | cons i rest ih =>
    intro r hr j hj
    rcases hv : c i with _ | v
    · simp [lookupAll, hv] at hr
    · rcases List.mem_cons.mp hj with hj1 | hj2
      · rw [hj1, hv]; rfl
      · simp only [lookupAll, hv] at hr
        rcases hrest : lookupAll c rest with e | r2
        · rw [hrest] at hr; simp [Except.map] at hr
        · exact ih r2 hrest j hj2

theorem filter_isNone_nil_iff (c : Int → Option Rat) (ids : List Int) :
    ids.filter (fun i => (c i).isNone) = [] ↔ ∀ i ∈ ids, (c i).isSome = true := by
  rw [List.filter_eq_nil_iff]
  constructor
  · intro h i hi
    rw [Option.isSome_iff_ne_none]
    intro hn
    exact h i hi (by simp [Option.isNone_iff_eq_none, hn])
  · intro h i hi
    intro hn
    exact (Option.isSome_iff_ne_none.mp (h i hi)) (Option.isNone_iff_eq_none.mp hn)

theorem cacheEverything_nil (env : MLEnv) (s : MLState) :
    cacheEverything env [] s = .ok s := rfl

theorem cacheEverything_pos (env : MLEnv) (db : List Row) (s : MLState) (m : Model)
    (hdb : db ≠ []) (hm : s.model = some m) :
    cacheEverything env db s =
      .ok { s with cache := cacheWriteAll (fun _ => none) (predPairs env m db) } := by
  unfold cacheEverything
  rw [if_neg hdb, hm]

theorem cacheEverything_noModel (env : MLEnv) (db : List Row) (s : MLState)
    (hdb : db ≠ []) (hm : s.model = none) :
    cacheEverything env db s = .error PyErr.noModelErr := by
  unfold cacheEverything
  rw [if_neg hdb, hm]

theorem cacheDirty_pos (env : MLEnv) (dirty : List Int) (db : List Row)
    (s : MLState) (m : Model) (hd : dirty ≠ []) (hm : s.model = some m) :
    cacheDirty env dirty db s =
      .ok { s with cache := (cacheWriteAll s.cache
              (predPairs env m (db.filter fun r => decide (r.id ∈ dirty)))) } := by
  unfold cacheDirty
  rw [if_neg hd, hm]

theorem finishP_ok (ids : List Int) (sErr s2 : MLState) (fs : List DbFetch)
    (r : List (Int × Rat)) (h : lookupAll s2.cache ids = .ok r) :
    finishP ids sErr (.ok s2, fs) = ⟨.ok r, s2, fs⟩ := by
  simp [finishP, h]

theorem finishP_error (ids : List Int) (sErr : MLState) (e : PyErr)
    (fs : List DbFetch) : finishP ids sErr (.error e, fs) = ⟨.error e, sErr, fs⟩ := rfl

theorem finishP_state_ok (ids : List Int) (sErr s2 : MLState) (fs : List DbFetch) :
    (finishP ids sErr (.ok s2, fs)).state = s2 := by
  cases hl : lookupAll s2.cache ids <;> simp [finishP, hl]

theorem finishP_fetches_ok (ids : List Int) (sErr s2 : MLState) (fs : List DbFetch) :
    (finishP ids sErr (.ok s2, fs)).fetches = fs := by
  cases hl : lookupAll s2.cache ids <;> simp [finishP, hl]

theorem fullCache_isSome (env : MLEnv) (m : Model) (db : List Row) (i : Int)
    (h : i ∈ db.map Row.id) :
    (cacheWriteAll (fun _ => none) (predPairs env m db) i).isSome = true := by
  apply cacheWriteAll_isSome_of_mem
  rw [predPairs_map_fst]
  exact h

theorem fullCache_none (env : MLEnv) (m : Model) (db : List Row) (i : Int)
    (h : i ∉ db.map Row.id) :
    cacheWriteAll (fun _ => none) (predPairs env m db) i = none := by
  rw [cacheWriteAll_apply_of_not_mem]
  rw [predPairs_map_fst]
  exact h

theorem mem_filterRows_id (db : List Row) (dirty : List Int) (i : Int)
    (hi : i ∈ db.map Row.id) (hd : i ∈ dirty) :
    i ∈ (db.filter fun r => decide (r.id ∈ dirty)).map Row.id := by
  obtain ⟨r, hr, hri⟩ := List.mem_map.mp hi
  exact List.mem_map.mpr ⟨r, List.mem_filter.mpr ⟨hr, by simp [hri, hd]⟩, hri⟩

theorem filterRows_id_mem (db : List Row) (dirty : List Int) (i : Int)
    (h : i ∈ (db.filter fun r => decide (r.id ∈ dirty)).map Row.id) : i ∈ dirty := by
  obtain ⟨r, hr, hri⟩ := List.mem_map.mp h
  have h2 := (List.mem_filter.mp hr).2
  rw [← hri]
  simpa using h2

theorem ratFloor_eq (q : Rat) : q.floor = ⌊q⌋ := rfl

theorem finishP_fetches (ids : List Int) (sErr : MLState)
    (e : Except PyErr MLState) (fs : List DbFetch) :
    (finishP ids sErr (e, fs)).fetches = fs := by
  cases e with
  | error e2 => rfl
  | ok s2 => exact finishP_fetches_ok ids sErr s2 fs

theorem fetchFL_mem_retrain (env : MLEnv) (ids : List Int) (db : List Row)
    (s : MLState) (hids : ids ≠ []) (hlf : loadFactorOf s > 1/5) :
    DbFetch.fetchAllFeaturesLabels ∈ (predict env ids db s).fetches := by
  rw [predict_cons env ids db s hids,
      pathStep_retrain env ids db (loadFactorOf s) (withConfig s) hlf,
      finishP_fetches]
  simp

theorem fetchFL_not_mem_incr (env : MLEnv) (ids : List Int) (db : List Row)
    (s : MLState) (m : Model) (hids : ids ≠ []) (hm : s.model = some m)
    (hlf : ¬ loadFactorOf s > 1/5) :
    DbFetch.fetchAllFeaturesLabels ∉ (predict env ids db s).fetches := by
  rw [predict_cons env ids db s hids,
      pathStep_incr env ids db (loadFactorOf s) (withConfig s) m hlf
        (by rw [withConfig_model]; exact hm)]
  by_cases hd : ids.filter (fun i => ((withConfig s).cache i).isNone) = []
  · rw [if_pos hd, finishP_fetches]
    simp
  · rw [if_neg hd, finishP_fetches]
    simp

theorem cacheEverything_error (env : MLEnv) (db : List Row) (s : MLState)
    (e : PyErr) (h : cacheEverything env db s = .error e) : e = PyErr.noModelErr := by
  unfold cacheEverything at h
  by_cases hdb : db = []
  · rw [if_pos hdb] at h
    cases h
  · rw [if_neg hdb] at h
    cases hm : s.model with
    | none =>
      rw [hm] at h
      cases h
      rfl
    | some m =>
      rw [hm] at h
      cases h

theorem finishP_result_ok_not_loadErr (ids : List Int) (sErr s2 : MLState)
    (fs : List DbFetch) :
    (finishP ids sErr (.ok s2, fs)).result ≠ Except.error PyErr.loadErr := by
  cases hl : lookupAll s2.cache ids <;> simp [finishP, hl]

theorem predict_incr (env : MLEnv) (ids : List Int) (db : List Row)
    (s : MLState) (m : Model) (hids : ids ≠ []) (hm : s.model = some m)
    (hlf : ¬ loadFactorOf s > 1/5) :
    predict env ids db s =
      (if (ids.filter fun i => (s.cache i).isNone) = []
       then finishP ids (withConfig s) (.ok (withConfig s), [])
       else finishP ids (withConfig s)
          (cacheDirty env (ids.filter fun i => (s.cache i).isNone) db (withConfig s),
           [DbFetch.fetchFeaturesByIDs (ids.filter fun i => (s.cache i).isNone)])) := by
  rw [predict_cons env ids db s hids,
      pathStep_incr env ids db (loadFactorOf s) (withConfig s) m hlf
        (by rw [withConfig_model]; exact hm)]
  simp only [withConfig_cache]
  rw [apply_ite (finishP ids (withConfig s))]

theorem runTrain_model_isSome (env : MLEnv) (db : List Row) (s : MLState)
    (h : trainKept env db ≠ [] ∨ s.model ≠ none) :
    ∃ m2, (runTrain env db s).model = some m2 := by
  by_cases hk : trainKept env db = []
  · rw [runTrain_empty env db s hk]
    rcases h with h | h
    · exact absurd hk h
    · cases hm : s.model with
      | none => exact (h hm).elim
      | some m => exact ⟨m, rfl⟩
  · rw [runTrain_pos env db s hk]
    exact ⟨fitModel (trainKept env db), rfl⟩

theorem finishP_covered (ids : List Int) (sErr s2 : MLState) (fs : List DbFetch)
    (h : ∀ i ∈ ids, (s2.cache i).isSome = true) :
    ∃ r, (finishP ids sErr (.ok s2, fs)).result = .ok r
      ∧ r.map Prod.fst = ids
      ∧ ∀ p ∈ r, (finishP ids sErr (.ok s2, fs)).state.cache p.1 = some p.2 := by
  obtain ⟨r, hr, hfst, hval⟩ := lookupAll_ok_of s2.cache ids h
  rw [finishP_ok ids sErr s2 fs r hr]
  exact ⟨r, rfl, hfst, hval⟩

theorem cacheDirty_covers (env : MLEnv) (ids : List Int) (db : List Row)
    (c : Int → Option Rat) (m : Model)
    (hcov : ∀ i ∈ ids, i ∈ db.map Row.id) :
    ∀ i ∈ ids,
      ((cacheWriteAll c
        (predPairs env m (db.filter fun r =>
          decide (r.id ∈ ids.filter fun j => (c j).isNone)))) i).isSome = true := by
  intro i hi
  by_cases hs : (c i).isSome = true
  · exact cacheWriteAll_isSome_of_isSome _ c i hs
  · have hnone : (c i).isNone = true := by
      cases hc : c i
      · rfl
      · rw [hc] at hs
        exact absurd rfl hs
    apply cacheWriteAll_isSome_of_mem
    rw [predPairs_map_fst]
    apply mem_filterRows_id db _ i (hcov i hi)
    exact List.mem_filter.mpr ⟨hi, hnone⟩

theorem finishP_result_ok_iff (ids : List Int) (sErr s2 : MLState)
    (fs : List DbFetch) (r : List (Int × Rat)) :
    (finishP ids sErr (.ok s2, fs)).result = .ok r
      ↔ lookupAll s2.cache ids = .ok r := by
  cases hl : lookupAll s2.cache ids with
  | error i => simp [finishP, hl]
  | ok r2 => simp [finishP, hl]

theorem loadFactorOf_congr (s1 s2 : MLState) (h : s1.configFile = s2.configFile) :
    loadFactorOf s1 = loadFactorOf s2 := by
  simp [loadFactorOf, configOf, h]

theorem cacheEverything_ok_cache (env : MLEnv) (db : List Row) (s : MLState)
    (m : Model) (hm : s.model = some m) :
    ∃ c2, cacheEverything env db s = .ok { s with cache := c2 } := by
  by_cases hdb : db = []
  · subst hdb
    exact ⟨s.cache, by rw [cacheEverything_nil]⟩
  · exact ⟨_, cacheEverything_pos env db s m hdb hm⟩

theorem predict_cons_somecfg (env : MLEnv) (ids : List Int) (db : List Row)
    (st1 : MLState) (c : TrainingState) (hids : ids ≠ [])
    (hc : st1.configFile = some c) :
    predict env ids db st1
      = finishP ids st1 (pathStep env ids db (loadFactorOf st1) st1) := by
  rw [predict_cons env ids db st1 hids, withConfig_of_some st1 c hc]

theorem second_incr (env : MLEnv) (ids : List Int) (db : List Row)
    (st1 : MLState) (m : Model) (r : List (Int × Rat)) (hids : ids ≠ [])
    (hm : st1.model = some m) (hlf2 : ¬ loadFactorOf st1 > 1/5)
    (hok : lookupAll st1.cache ids = .ok r) :
    (predict env ids db st1).result = .ok r
      ∧ (predict env ids db st1).fetches = [] := by
  have hd : ids.filter (fun i => (st1.cache i).isNone) = [] :=
    (filter_isNone_nil_iff st1.cache ids).mpr (lookupAll_covers st1.cache ids r hok)
  rw [predict_incr env ids db st1 m hids hm hlf2, if_pos hd]
  constructor
  · rw [finishP_ok ids (withConfig st1) (withConfig st1) [] r
      (by rw [withConfig_cache]; exact hok)]
  · rw [finishP_fetches]

theorem loadFactorOf_zero_of_cfg (st1 : MLState) (n : Nat)
    (h : st1.configFile = some ⟨0, n⟩) : ¬ loadFactorOf st1 > 1/5 := by
  have hz : loadFactorOf st1 = 0 := by
    simp [loadFactorOf, configOf, h]
  rw [hz]
  norm_num

theorem second_retrain_degenerate (env : MLEnv) (ids : List Int) (db : List Row)
    (st1 : MLState) (m : Model) (r : List (Int × Rat)) (hids : ids ≠ [])
    (hc : st1.configFile = some (configOf st1))
    (hlf1 : loadFactorOf st1 > 1/5) (hk : trainKept env db = [])
    (hm : st1.model = some m) (hdb : db ≠ [])
    (hok : lookupAll (cacheWriteAll (fun _ => none) (predPairs env m db)) ids
      = .ok r) :
    (predict env ids db st1).result = .ok r := by
  rw [predict_cons_somecfg env ids db st1 (configOf st1) hids hc,
      pathStep_retrain env ids db (loadFactorOf st1) st1 hlf1,
      runTrain_empty env db st1 hk,
      cacheEverything_pos env db st1 m hdb hm]
  exact (finishP_result_ok_iff ids st1 _ _ r).mpr (by exact hok)

/-! ## The claims -/

/-- C9: `predict([])` returns the empty mapping immediately: no Data
Store fetch is issued, the training state is neither read (and hence
never created) nor written, and the prediction cache, the model and the
pkl file are untouched — the state is returned unchanged. -/
theorem c9_empty_input (env : MLEnv) (db : List Row) (s : MLState) :
    predict env [] db s = ⟨.ok [], s, []⟩ :=
  predict_nil env db s

/-- C4: when zero rows survive the two filtering steps of `_train`
(missing/zero labels dropped, then Tukey outlier exclusion), the fit is
a no-op: the state — in-memory model, pkl file, and both persisted
counters — is returned entirely unchanged. -/
theorem c4_degenerate_fit_noop (env : MLEnv) (db : List Row) (s : MLState)
    (h : trainKept env db = []) : runTrain env db s = s :=
  runTrain_empty env db s h

/-- Witness for C4 at a concrete input: one row whose pay is NULL. -/
theorem c4_witness :
    runTrain envC [⟨1, "A", 1, none⟩] mlInit = mlInit :=
  c4_degenerate_fit_noop envC [⟨1, "A", 1, none⟩] mlInit (by decide)

/-- C10: `predict` can raise an uncaught `KeyError` instead of
returning a mapping when a requested ID is neither cached nor backed by
a Data Store row.  First conjunct: non-empty request against an empty
Data Store on a cold start (training and the cache refresh both hit
their empty guards, so the final lookup of id 5 raises).  Second
conjunct: incremental path where id 5's record is gone from the store
while id 2 is re-fetched, so the final lookup of id 5 raises. -/
theorem c10_uncaught_keyerror :
    (predict envC [(5:Int)] [] mlInit).result = Except.error (PyErr.keyErr 5)
    ∧ (predict envC [(2:Int), 5] [⟨2, "A", 3, some 10⟩]
        ⟨some ⟨[], []⟩, fun _ => none, some ⟨0, 10⟩, none⟩).result
      = Except.error (PyErr.keyErr 5) :=
  ⟨by decide, by decide⟩

/-- Counterexample to C1 as stated: in the Data Store `[(id 1, "A", 1,
pay NULL)]` every requested ID of `predict([1])` has a feature row, yet
the cold-start call trains on zero filtered rows (pay NULL is dropped),
leaves no model, and `_predictAndCacheEverything` then calls
`None.predict` — an uncaught `AttributeError`, not a returned
mapping. -/
theorem c1_counterexample :
    (1:Int) ∈ ([⟨1, "A", 1, none⟩] : List Row).map Row.id
    ∧ (predict envC [(1:Int)] [⟨1, "A", 1, none⟩] mlInit).result
      = Except.error PyErr.noModelErr :=
  ⟨by decide, by decide⟩

/-- Counterexample to C6 as stated: with no model in memory, load
factor 0, and a present-but-unreadable `model.pkl`, the cold-start
`predict` calls `joblib.load` on the artifact and the raised exception
propagates — an incompatible artifact is not treated as "no model
available". -/
theorem c6_counterexample :
    (predict envC [(1:Int)] [⟨1, "A", 1, some 10⟩]
      ⟨none, fun _ => none, some ⟨0, 10⟩, some PklContent.corrupt⟩).result
    = Except.error PyErr.loadErr := by
  decide

/-- Counterexample to C8 as stated: two failures of "the second call
performs no Data Store fetch".  First: a degenerate retrain (load
factor 1/2, all labels NULL) succeeds from the old in-memory model but
never resets the counters, so the second identical call fetches again.
Second: a state with a cache entry but no model and no artifact
succeeds from the stale cache entry while both calls fetch (load factor
0 throughout). -/
theorem c8_counterexample :
    ((predict envC [(1:Int)] [⟨1, "A", 1, none⟩]
        ⟨some ⟨[], []⟩, fun _ => none, some ⟨5, 10⟩, none⟩).result
      = Except.ok [(1, 1)]
     ∧ (predict envC [(1:Int)] [⟨1, "A", 1, none⟩]
        (predict envC [(1:Int)] [⟨1, "A", 1, none⟩]
          ⟨some ⟨[], []⟩, fun _ => none, some ⟨5, 10⟩, none⟩).state).fetches ≠ [])
    ∧ ((predict envC [(1:Int)] []
          ⟨none, fun i => if i = 1 then some 5 else none, none, none⟩).result
        = Except.ok [(1, 5)]
       ∧ (predict envC [(1:Int)] []
          (predict envC [(1:Int)] []
            ⟨none, fun i => if i = 1 then some 5 else none, none, none⟩).state).fetches ≠ []) :=
  ⟨⟨by decide, by decide⟩, ⟨by decide, by decide⟩⟩

/-- C2: the retrain decision of `predict` is the pure function
`loadFactorOf` of the persisted training state: (i) the load factor is
`changeCounter / lastTrainedRowCount` when `lastTrainedRowCount > 0`
and `0.0` otherwise; (ii) with a model in memory, `predict` issues the
full-retrain fetch exactly when the load factor strictly exceeds `0.2`;
(iii) with `lastTrainedRowCount = 100` and `changeCounter = 19` no
retrain occurs; (iv) with `lastTrainedRowCount = 0` no retrain ever
occurs. -/
theorem c2_retrain_decision (env : MLEnv) (ids : List Int) (db : List Row)
    (s : MLState) (m : Model) (hids : ids ≠ []) (hm : s.model = some m) :
    (∀ c n : Nat, loadFactorOf { s with configFile := some ⟨c, n⟩ }
        = if n > 0 then (c : Rat) / (n : Rat) else 0)
    ∧ (DbFetch.fetchAllFeaturesLabels ∈ (predict env ids db s).fetches
        ↔ loadFactorOf s > 1/5)
    ∧ DbFetch.fetchAllFeaturesLabels ∉
        (predict env ids db { s with configFile := some ⟨19, 100⟩ }).fetches
    ∧ ∀ c : Nat, DbFetch.fetchAllFeaturesLabels ∉
        (predict env ids db { s with configFile := some ⟨c, 0⟩ }).fetches := by
  refine ⟨?_, ⟨?_, ?_⟩, ?_, ?_⟩
  · intro c n
    simp [loadFactorOf, configOf]
  · intro hmem
    by_contra hlf
    exact fetchFL_not_mem_incr env ids db s m hids hm hlf hmem
  · intro hlf
    exact fetchFL_mem_retrain env ids db s hids hlf
  · exact fetchFL_not_mem_incr env ids db _ m hids hm
      (by norm_num [loadFactorOf, configOf])
  · intro c
    exact fetchFL_not_mem_incr env ids db _ m hids hm
      (by norm_num [loadFactorOf, configOf])

/-- Witness for C2 at a concrete input: with counters 19/100 the call
does not issue the full-retrain fetch. -/
theorem c2_witness :
    DbFetch.fetchAllFeaturesLabels ∉
      (predict envC [(1:Int)] []
        { (⟨some ⟨[], []⟩, fun _ => none, some ⟨19, 100⟩, none⟩ : MLState) with
          configFile := some ⟨19, 100⟩ }).fetches :=
  (c2_retrain_decision envC [1] [] ⟨some ⟨[], []⟩, fun _ => none, some ⟨19, 100⟩, none⟩
    ⟨[], []⟩ (by decide) rfl).2.2.1

/-- C5: training preprocessing drops every row whose label is missing
or exactly zero (second conjunct: every surviving row comes from such a
row, carrying its log-label), the Tukey bounds on the log-label are
inclusive, the persisted `lastTrainedRowCount` equals the number of
surviving rows (first conjunct), and on labels `[10, 10, 10, 10,
10000]` exactly the four non-outlier rows survive — for every possible
log assignment with `log 10 < log 10000`, the bounds degenerate to the
common log-label (kept inclusively) and the outlier is dropped (third
conjunct). -/
theorem c5_preprocessing :
    (∀ (env : MLEnv) (db : List Row) (s : MLState), trainKept env db ≠ [] →
        (runTrain env db s).configFile = some ⟨0, (trainKept env db).length⟩)
    ∧ (∀ (env : MLEnv) (db : List Row) (t : String × Rat × Rat),
        t ∈ trainKept env db →
        ∃ r ∈ db, r.pay ≠ none ∧ r.pay ≠ some 0
          ∧ t = (r.jobType, r.hoursWorked, env.logF (r.pay.getD 0)))
    ∧ (∀ a b : Rat, a < b →
        trainKept (mkLogEnv a b) dbOutlier = List.replicate 4 ("A", (1:Rat), a)) := by
  refine ⟨?_, ?_, ?_⟩
  · intro env db s h
    rw [runTrain_pos env db s h]
  · intro env db t ht
    simp only [trainKept] at ht
    have ht2 := (List.mem_filter.mp ht).1
    obtain ⟨r, hr, hmatch⟩ := List.mem_filterMap.mp ht2
    cases hpay : r.pay with
    | none =>
      rw [hpay] at hmatch
      simp at hmatch
    | some p =>
      rw [hpay] at hmatch
      by_cases hp : p = 0
      · simp [hp] at hmatch
      · simp only [hp, if_false, Option.some.injEq] at hmatch
        refine ⟨r, hr, by simp [hpay], by simp [hpay, hp], ?_⟩
        rw [← hmatch]
        simp [hpay]
  · intro a b hab
    have hab2 : a ≤ b := le_of_lt hab
    have hba : ¬ b ≤ a := not_le.mpr hab
    have hpre : prelim (mkLogEnv a b) dbOutlier
        = [("A", 1, a), ("A", 1, a), ("A", 1, a), ("A", 1, a), ("A", 1, b)] := by
      simp only [prelim, dbOutlier, mkLogEnv, List.filterMap_cons, List.filterMap_nil]
      norm_num
    have hsort : sortRats [a, a, a, a, b] = [a, a, a, a, b] := by
      simp [sortRats, insertR, hab2]
    have hq1 : quantileLin (1/4) [a, a, a, a, b] = a := by
      simp only [quantileLin, hsort, ratFloor_eq]
      norm_num
    have hq3 : quantileLin (3/4) [a, a, a, a, b] = a := by
      simp only [quantileLin, hsort, ratFloor_eq]
      norm_num
      simp only [show Int.toNat 3 = 3 from rfl]
      show a + ((3:Rat) - ((3:Nat) : Rat)) * (b - a) = a
      norm_num
    simp only [trainKept, hpre, List.map_cons, List.map_nil]
    rw [hq1, hq3]
    have hb1 : a - 3/2 * (a - a) = a := by ring
    have hb2 : a + 3/2 * (a - a) = a := by ring
    rw [hb1, hb2]
    simp [List.filter_cons, hba, List.replicate]

/-- Witness for C5 at concrete inputs: a one-row training set persists
row count 1, and the outlier fixture keeps exactly the four rows with
the smaller log-label. -/
theorem c5_witness :
    (runTrain envC [⟨1, "A", 2, some 10⟩] mlInit).configFile
        = some ⟨0, (trainKept envC [⟨1, "A", 2, some 10⟩]).length⟩
    ∧ trainKept (mkLogEnv 0 1) dbOutlier = List.replicate 4 ("A", (1:Rat), 0) :=
  ⟨c5_preprocessing.1 envC [⟨1, "A", 2, some 10⟩] mlInit (by decide),
   c5_preprocessing.2.2 0 1 (by norm_num)⟩

/-- C3: when the load factor exceeds the threshold and the filtered
training set is non-empty, `predict` runs the full retrain path: the
model becomes the pipeline fitted on the filtered rows, that model is
persisted to the pkl file, the persisted training state becomes
`{changeCounter: 0, lastTrainedRowCount: rows used}`, and the cache is
cleared (nothing outside the store's ids remains) and replaced with
fresh predictions for ALL records currently in the store. -/
theorem c3_full_retrain (env : MLEnv) (ids : List Int) (db : List Row)
    (s : MLState) (hids : ids ≠ []) (hlf : loadFactorOf s > 1/5)
    (hk : trainKept env db ≠ []) :
    (predict env ids db s).state.model = some (fitModel (trainKept env db))
    ∧ (predict env ids db s).state.pklFile
        = some (PklContent.good (fitModel (trainKept env db)))
    ∧ (predict env ids db s).state.configFile = some ⟨0, (trainKept env db).length⟩
    ∧ (∀ i, (predict env ids db s).state.cache i
        = lastWrite (predPairs env (fitModel (trainKept env db)) db) i)
    ∧ (∀ i, i ∈ db.map Row.id →
        ((predict env ids db s).state.cache i).isSome = true)
    ∧ (∀ i, i ∉ db.map Row.id → (predict env ids db s).state.cache i = none) := by
  have hdb : db ≠ [] := trainKept_ne_nil_db env db hk
  have h1 : predict env ids db s
      = finishP ids (withConfig s)
          (cacheEverything env db (runTrain env db (withConfig s)),
           [DbFetch.fetchAllFeaturesLabels, DbFetch.fetchAllIdFeatures]) := by
    rw [predict_cons env ids db s hids,
        pathStep_retrain env ids db (loadFactorOf s) (withConfig s) hlf]
  have h2 := runTrain_pos env db (withConfig s) hk
  have h3 : cacheEverything env db (runTrain env db (withConfig s))
      = .ok { runTrain env db (withConfig s) with
              cache := cacheWriteAll (fun _ => none)
                (predPairs env (fitModel (trainKept env db)) db) } :=
    cacheEverything_pos env db _ (fitModel (trainKept env db)) hdb (by rw [h2])
  have hst : (predict env ids db s).state
      = { runTrain env db (withConfig s) with
          cache := cacheWriteAll (fun _ => none)
            (predPairs env (fitModel (trainKept env db)) db) } := by
    rw [h1, h3, finishP_state_ok]
  refine ⟨?_, ?_, ?_, ?_, ?_, ?_⟩
  · rw [hst]
    show (runTrain env db (withConfig s)).model = _
    rw [h2]
  · rw [hst]
    show (runTrain env db (withConfig s)).pklFile = _
    rw [h2]
  · rw [hst]
    show (runTrain env db (withConfig s)).configFile = _
    rw [h2]
  · intro i
    rw [hst]
    show cacheWriteAll (fun _ => none) _ i = _
    rw [cacheWriteAll_apply]
    cases lastWrite (predPairs env (fitModel (trainKept env db)) db) i <;> rfl
  · intro i hi
    rw [hst]
    exact fullCache_isSome env (fitModel (trainKept env db)) db i hi
  · intro i hi
    rw [hst]
    exact fullCache_none env (fitModel (trainKept env db)) db i hi

/-- Witness for C3 at a concrete input: load factor 1/2, one trainable
row; the persisted state becomes `{0, 1}`. -/
theorem c3_witness :
    (predict envC [(1:Int)] [⟨1, "A", 2, some 10⟩]
      ⟨none, fun _ => none, some ⟨5, 10⟩, none⟩).state.configFile
    = some ⟨0, (trainKept envC [⟨1, "A", 2, some 10⟩]).length⟩ :=
  (c3_full_retrain envC [1] [⟨1, "A", 2, some 10⟩]
    ⟨none, fun _ => none, some ⟨5, 10⟩, none⟩
    (by decide) (by decide) (by decide)).2.2.1

/-- C6 amended: on a cold start (no model in memory, load factor not
above threshold) a MISSING artifact is treated as "no model available"
and `predict` falls back to training from scratch — it issues the
fetch-all-features-and-labels fetch followed by the cache-refresh
fetch, and the load step never raises; an INCOMPATIBLE (unreadable)
artifact, however, is not detected and raises
(`c6_counterexample`). -/
theorem c6_amended (env : MLEnv) (ids : List Int) (db : List Row) (s : MLState)
    (hids : ids ≠ []) (hlf : ¬ loadFactorOf s > 1/5) (hm : s.model = none)
    (hp : s.pklFile = none) :
    (predict env ids db s).fetches
      = [DbFetch.fetchAllFeaturesLabels, DbFetch.fetchAllIdFeatures]
    ∧ (predict env ids db s).result ≠ Except.error PyErr.loadErr := by
  have h1 : predict env ids db s
      = finishP ids (withConfig s)
          (cacheEverything env db (runTrain env db (withConfig s)),
           [DbFetch.fetchAllFeaturesLabels, DbFetch.fetchAllIdFeatures]) := by
    rw [predict_cons env ids db s hids,
        pathStep_coldTrain env ids db (loadFactorOf s) (withConfig s) hlf
          (by rw [withConfig_model]; exact hm)
          (by rw [withConfig_pklFile]; exact hp)]
  rw [h1]
  constructor
  · rw [finishP_fetches]
  · cases he : cacheEverything env db (runTrain env db (withConfig s)) with
    | error e =>
      rw [finishP_error]
      have he2 := cacheEverything_error env db _ e he
      rw [he2]
      simp
    | ok s2 =>
      exact finishP_result_ok_not_loadErr ids (withConfig s) s2 _

/-- Witness for C6 at a concrete input: fresh state, no artifact on
disk; the call trains from scratch. -/
theorem c6_witness :
    (predict envC [(1:Int)] [⟨1, "A", 2, some 10⟩] mlInit).fetches
      = [DbFetch.fetchAllFeaturesLabels, DbFetch.fetchAllIdFeatures] :=
  (c6_amended envC [1] [⟨1, "A", 2, some 10⟩] mlInit (by decide) (by decide)
    rfl rfl).1

/-- C7: on the incremental path (model in memory, load factor not above
threshold) the Data Store is queried for exactly the requested IDs
missing from the cache — no fetch at all when that set is empty — and
every cache entry outside that dirty set is unchanged; consequently
after `markDirtyIDs([x])` the next `predict([x])` re-fetches exactly
`[x]`, while `predict([y])` for an already-cached `y` issues no
fetch. -/
theorem c7_incremental_frame (env : MLEnv) (ids : List Int) (db : List Row)
    (s : MLState) (m : Model) (hm : s.model = some m)
    (hlf : ¬ loadFactorOf s > 1/5) :
    ((ids.filter fun i => (s.cache i).isNone) = [] →
        (predict env ids db s).fetches = [])
    ∧ ((ids.filter fun i => (s.cache i).isNone) ≠ [] →
        (predict env ids db s).fetches
          = [DbFetch.fetchFeaturesByIDs (ids.filter fun i => (s.cache i).isNone)])
    ∧ (∀ i, i ∉ (ids.filter fun i => (s.cache i).isNone) →
        (predict env ids db s).state.cache i = s.cache i)
    ∧ (∀ x, (predict env [x] db (markDirtyIDs s [x])).fetches
        = [DbFetch.fetchFeaturesByIDs [x]])
    ∧ (∀ y v, s.cache y = some v → (predict env [y] db s).fetches = []) := by
  refine ⟨?_, ?_, ?_, ?_, ?_⟩
  · intro hd
    by_cases hids : ids = []
    · rw [hids, predict_nil]
    · rw [predict_incr env ids db s m hids hm hlf, if_pos hd, finishP_fetches]
  · intro hd
    have hids : ids ≠ [] := by
      intro h
      rw [h] at hd
      exact hd rfl
    rw [predict_incr env ids db s m hids hm hlf, if_neg hd, finishP_fetches]
  · intro i hi
    by_cases hids : ids = []
    · rw [hids, predict_nil]
    · rw [predict_incr env ids db s m hids hm hlf]
      by_cases hd : (ids.filter fun i => (s.cache i).isNone) = []
      · rw [if_pos hd, finishP_state_ok, withConfig_cache]
      · rw [if_neg hd,
            cacheDirty_pos env (ids.filter fun i => (s.cache i).isNone) db
              (withConfig s) m hd (by rw [withConfig_model]; exact hm),
            finishP_state_ok]
        show cacheWriteAll (withConfig s).cache _ i = s.cache i
        rw [withConfig_cache, cacheWriteAll_apply_of_not_mem]
        rw [predPairs_map_fst]
        intro hmem
        exact hi (filterRows_id_mem db _ i hmem)
  · intro x
    have hm2 : (markDirtyIDs s [x]).model = some m := hm
    have hlf2 : ¬ loadFactorOf (markDirtyIDs s [x]) > 1/5 := hlf
    have hd : ([x].filter fun i => ((markDirtyIDs s [x]).cache i).isNone) = [x] := by
      simp [markDirtyIDs]
    rw [predict_incr env [x] db (markDirtyIDs s [x]) m (by simp) hm2 hlf2, hd,
        if_neg (by simp : ([x] : List Int) ≠ []), finishP_fetches]
  · intro y v hv
    have hd : ([y].filter fun i => (s.cache i).isNone) = [] := by simp [hv]
    rw [predict_incr env [y] db s m (by simp) hm hlf, if_pos hd, finishP_fetches]

/-- Witness for C7 at a concrete input: cache holds id 1 only; a
request for ids 1 and 2 fetches exactly [2] and leaves id 1's entry
unchanged. -/
theorem c7_witness :
    (predict envC [(1:Int), 2] [⟨1, "A", 2, some 10⟩, ⟨2, "B", 3, some 20⟩]
      ⟨some ⟨[], []⟩, fun i => if i = 1 then some 7 else none, some ⟨0, 10⟩, none⟩).fetches
      = [DbFetch.fetchFeaturesByIDs [2]] :=
  (c7_incremental_frame envC [1, 2] [⟨1, "A", 2, some 10⟩, ⟨2, "B", 3, some 20⟩]
    ⟨some ⟨[], []⟩, fun i => if i = 1 then some 7 else none, some ⟨0, 10⟩, none⟩
    ⟨[], []⟩ rfl (by decide)).2.1 (by decide)

/-- C1 amended: for non-empty `requestedIDs`, under the preconditions
that every requested ID has a feature row in the Data Store AND that
the taken path has a model available (`modelAvailable`: on retrain, the
filtered training set is non-empty or a model is already in memory; on
cold start, a loadable artifact exists, or none exists and the filtered
training set is non-empty), `predict` returns a mapping whose key list
is exactly `requestedIDs`, and each value equals the prediction-cache
entry for that ID at return time.  (Without the extra availability
precondition the claim fails: `c1_counterexample`.) -/
theorem c1_amended (env : MLEnv) (ids : List Int) (db : List Row) (s : MLState)
    (hids : ids ≠ []) (hcov : ∀ i ∈ ids, i ∈ db.map Row.id)
    (hav : modelAvailable env db s) :
    ∃ r, (predict env ids db s).result = .ok r
      ∧ r.map Prod.fst = ids
      ∧ ∀ p ∈ r, (predict env ids db s).state.cache p.1 = some p.2 := by
  have hdb : db ≠ [] := by
    cases ids with
    | nil => exact absurd rfl hids
    | cons i rest =>
      have h2 := hcov i (by simp)
      intro h3
      rw [h3] at h2
      simp at h2
  unfold modelAvailable at hav
  by_cases hlf : loadFactorOf s > 1/5
  · rw [if_pos hlf] at hav
    have hmod : ∃ m2, (runTrain env db (withConfig s)).model = some m2 := by
      apply runTrain_model_isSome
      rcases hav with h | h
      · exact Or.inl h
      · right
        rw [withConfig_model]
        exact h
    obtain ⟨m2, hm2⟩ := hmod
    rw [predict_cons env ids db s hids,
        pathStep_retrain env ids db (loadFactorOf s) (withConfig s) hlf,
        cacheEverything_pos env db _ m2 hdb hm2]
    apply finishP_covered
    intro i hi
    exact fullCache_isSome env m2 db i (hcov i hi)
  · rw [if_neg hlf] at hav
    by_cases hm : s.model = none
    · rw [if_pos hm] at hav
      rcases hav with hgood | ⟨hpn, hk⟩
      · cases hpk : s.pklFile with
        | none =>
          rw [hpk] at hgood
          simp [isGoodPkl] at hgood
        | some pc =>
          cases pc with
          | corrupt =>
            rw [hpk] at hgood
            simp [isGoodPkl] at hgood
          | good mp =>
            rw [predict_cons env ids db s hids,
                pathStep_coldLoad env ids db (loadFactorOf s) (withConfig s) mp hlf
                  (by rw [withConfig_model]; exact hm)
                  (by rw [withConfig_pklFile]; exact hpk),
                cacheEverything_pos env db _ mp hdb rfl]
            apply finishP_covered
            intro i hi
            exact fullCache_isSome env mp db i (hcov i hi)
      · have hm2 : (runTrain env db (withConfig s)).model
            = some (fitModel (trainKept env db)) := by
          rw [runTrain_pos env db _ hk]
        rw [predict_cons env ids db s hids,
            pathStep_coldTrain env ids db (loadFactorOf s) (withConfig s) hlf
              (by rw [withConfig_model]; exact hm)
              (by rw [withConfig_pklFile]; exact hpn),
            cacheEverything_pos env db _ _ hdb hm2]
        apply finishP_covered
        intro i hi
        exact fullCache_isSome env _ db i (hcov i hi)
    · cases hsm : s.model with
      | none => exact absurd hsm hm
      | some m =>
        rw [predict_incr env ids db s m hids hsm hlf]
        by_cases hd : (ids.filter fun i => (s.cache i).isNone) = []
        · rw [if_pos hd]
          apply finishP_covered
          intro i hi
          rw [withConfig_cache]
          exact (filter_isNone_nil_iff s.cache ids).mp hd i hi
        · rw [if_neg hd,
              cacheDirty_pos env _ db (withConfig s) m hd
                (by rw [withConfig_model]; exact hsm)]
          apply finishP_covered
          intro i hi
          show ((cacheWriteAll (withConfig s).cache _) i).isSome = true
          rw [withConfig_cache]
          exact cacheDirty_covers env ids db s.cache m hcov i hi

/-- C8 amended: calling `predict(ids)` twice in a row with no
intervening notification, whenever the first call returns a mapping,
the second call returns the identical mapping; and if additionally the
persisted load factor after the first call is not above the threshold
and a model is in memory (which holds in every state the class itself
can reach after a successful call), the second call performs no Data
Store fetch.  (The extra conditions are forced by
`c8_counterexample`.) -/
theorem c8_idempotence (env : MLEnv) (ids : List Int) (db : List Row) (s : MLState)
    (r : List (Int × Rat)) (h1 : (predict env ids db s).result = .ok r) :
    (predict env ids db (predict env ids db s).state).result = .ok r
    ∧ (¬ loadFactorOf (predict env ids db s).state > 1/5 →
        (predict env ids db s).state.model ≠ none →
        (predict env ids db (predict env ids db s).state).fetches = []) := by
  by_cases hids : ids = []
  · subst hids
    have hr : r = [] := by
      have h2 : Except.ok ([] : List (Int × Rat)) = Except.ok r := h1
      cases h2
      rfl
    subst hr
    simp [predict_nil]
  · rw [predict_cons env ids db s hids] at h1 ⊢
    by_cases hlf : loadFactorOf s > 1/5
    · rw [pathStep_retrain env ids db (loadFactorOf s) (withConfig s) hlf] at h1 ⊢
      by_cases hk : trainKept env db = []
      · rw [runTrain_empty env db (withConfig s) hk] at h1 ⊢
        by_cases hdb : db = []
        · subst hdb
          rw [cacheEverything_nil] at h1 ⊢
          have hok := (finishP_result_ok_iff ids (withConfig s) (withConfig s) _ r).mp h1
          rw [finishP_state_ok]
          constructor
          · rw [predict_cons_somecfg env ids [] (withConfig s) (configOf s) hids rfl,
                pathStep_retrain env ids [] (loadFactorOf (withConfig s)) (withConfig s)
                  (by rw [loadFactorOf_withConfig]; exact hlf),
                runTrain_empty env [] (withConfig s) (trainKept_nil env),
                cacheEverything_nil]
            exact (finishP_result_ok_iff ids (withConfig s) (withConfig s) _ r).mpr hok
          · intro hlf2 _
            rw [loadFactorOf_withConfig] at hlf2
            exact absurd hlf hlf2
        · cases hmod : s.model with
          | none =>
            rw [cacheEverything_noModel env db (withConfig s) hdb
                  (by rw [withConfig_model]; exact hmod),
                finishP_error] at h1
            cases h1
          | some m =>
            rw [cacheEverything_pos env db (withConfig s) m hdb
                  (by rw [withConfig_model]; exact hmod)] at h1 ⊢
            have hok := (finishP_result_ok_iff ids (withConfig s) _ _ r).mp h1
            rw [finishP_state_ok]
            constructor
            · exact second_retrain_degenerate env ids db _ m r hids rfl
                (by exact hlf) hk (by exact hmod) hdb (by exact hok)
            · intro hlf2 _
              exact absurd (show loadFactorOf _ > 1/5 from hlf) hlf2
      · rw [runTrain_pos env db (withConfig s) hk] at h1 ⊢
        have hdb : db ≠ [] := trainKept_ne_nil_db env db hk
        rw [cacheEverything_pos env db _ (fitModel (trainKept env db)) hdb rfl] at h1 ⊢
        have hok := (finishP_result_ok_iff ids (withConfig s) _ _ r).mp h1
        rw [finishP_state_ok]
        have hsec := second_incr env ids db _ (fitModel (trainKept env db)) r hids rfl
          (loadFactorOf_zero_of_cfg _ (trainKept env db).length (by exact rfl)) hok
        exact ⟨hsec.1, fun _ _ => hsec.2⟩
    · cases hmod : s.model with
      | some m =>
        rw [pathStep_incr env ids db (loadFactorOf s) (withConfig s) m hlf
              (by rw [withConfig_model]; exact hmod)] at h1 ⊢
        by_cases hd : ids.filter (fun i => ((withConfig s).cache i).isNone) = []
        · rw [if_pos hd] at h1 ⊢
          have hok := (finishP_result_ok_iff ids (withConfig s) (withConfig s) _ r).mp h1
          rw [finishP_state_ok]
          have hsec := second_incr env ids db (withConfig s) m r hids
            (by rw [withConfig_model]; exact hmod)
            (by rw [loadFactorOf_withConfig]; exact hlf) hok
          exact ⟨hsec.1, fun _ _ => hsec.2⟩
        · rw [if_neg hd,
              cacheDirty_pos env _ db (withConfig s) m hd
                (by rw [withConfig_model]; exact hmod)] at h1 ⊢
          have hok := (finishP_result_ok_iff ids (withConfig s) _ _ r).mp h1
          rw [finishP_state_ok]
          have hsec := second_incr env ids db _ m r hids
            (by exact hmod) (by exact hlf) hok
          exact ⟨hsec.1, fun _ _ => hsec.2⟩
      | none =>
        cases hpk : s.pklFile with
        | some pc =>
          cases pc with
          | corrupt =>
            rw [pathStep_coldCorrupt env ids db (loadFactorOf s) (withConfig s) hlf
                  (by rw [withConfig_model]; exact hmod)
                  (by rw [withConfig_pklFile]; exact hpk),
                finishP_error] at h1
            cases h1
          | good mp =>
            rw [pathStep_coldLoad env ids db (loadFactorOf s) (withConfig s) mp hlf
                  (by rw [withConfig_model]; exact hmod)
                  (by rw [withConfig_pklFile]; exact hpk)] at h1 ⊢
            obtain ⟨c2, hce⟩ := cacheEverything_ok_cache env db
              ⟨some mp, (withConfig s).cache, (withConfig s).configFile,
               (withConfig s).pklFile⟩ mp rfl
            rw [hce] at h1 ⊢
            have hok := (finishP_result_ok_iff ids (withConfig s) _ _ r).mp h1
            rw [finishP_state_ok]
            have hsec := second_incr env ids db _ mp r hids (by exact rfl)
              (by exact hlf) hok
            exact ⟨hsec.1, fun _ _ => hsec.2⟩
        | none =>
          rw [pathStep_coldTrain env ids db (loadFactorOf s) (withConfig s) hlf
                (by rw [withConfig_model]; exact hmod)
                (by rw [withConfig_pklFile]; exact hpk)] at h1 ⊢
          by_cases hk : trainKept env db = []
          · rw [runTrain_empty env db (withConfig s) hk] at h1 ⊢
            by_cases hdb : db = []
            · subst hdb
              rw [cacheEverything_nil] at h1 ⊢
              have hok := (finishP_result_ok_iff ids (withConfig s) (withConfig s) _ r).mp h1
              rw [finishP_state_ok]
              constructor
              · rw [predict_cons_somecfg env ids [] (withConfig s) (configOf s) hids rfl,
                    pathStep_coldTrain env ids [] (loadFactorOf (withConfig s)) (withConfig s)
                      (by rw [loadFactorOf_withConfig]; exact hlf)
                      (by rw [withConfig_model]; exact hmod)
                      (by rw [withConfig_pklFile]; exact hpk),
                    runTrain_empty env [] (withConfig s) (trainKept_nil env),
                    cacheEverything_nil]
                exact (finishP_result_ok_iff ids (withConfig s) (withConfig s) _ r).mpr hok
              · intro _ hmod2
                rw [withConfig_model] at hmod2
                exact absurd hmod hmod2
            · rw [cacheEverything_noModel env db (withConfig s) hdb
                    (by rw [withConfig_model]; exact hmod),
                  finishP_error] at h1
              cases h1
          · rw [runTrain_pos env db (withConfig s) hk] at h1 ⊢
            have hdb : db ≠ [] := trainKept_ne_nil_db env db hk
            rw [cacheEverything_pos env db _ (fitModel (trainKept env db)) hdb rfl] at h1 ⊢
            have hok := (finishP_result_ok_iff ids (withConfig s) _ _ r).mp h1
            rw [finishP_state_ok]
            have hsec := second_incr env ids db _ (fitModel (trainKept env db)) r hids rfl
              (loadFactorOf_zero_of_cfg _ (trainKept env db).length (by exact rfl)) hok
            exact ⟨hsec.1, fun _ _ => hsec.2⟩

/-- Witness for C8 at a concrete input: a pure cache hit repeated. -/
theorem c8_witness :
    (predict envC [(1:Int)] []
      (predict envC [(1:Int)] []
        ⟨some ⟨[], []⟩, fun i => if i = 1 then some 7 else none,
         some ⟨0, 10⟩, none⟩).state).result = Except.ok [(1, 7)]
    ∧ (predict envC [(1:Int)] []
        (predict envC [(1:Int)] []
          ⟨some ⟨[], []⟩, fun i => if i = 1 then some 7 else none,
           some ⟨0, 10⟩, none⟩).state).fetches = [] := by
  have h := c8_idempotence envC [1] []
    ⟨some ⟨[], []⟩, fun i => if i = 1 then some 7 else none, some ⟨0, 10⟩, none⟩
    [(1, 7)] (by decide)
  exact ⟨h.1, h.2 (by decide) (by decide)⟩

/-- Witness for C1 at a concrete input: cold start over a one-row
store. -/
theorem c1_witness :
    ∃ r, (predict envC [(1:Int)] [⟨1, "A", 2, some 10⟩] mlInit).result = .ok r
      ∧ r.map Prod.fst = [1]
      ∧ ∀ p ∈ r,
        (predict envC [(1:Int)] [⟨1, "A", 2, some 10⟩] mlInit).state.cache p.1
          = some p.2 :=
  c1_amended envC [1] [⟨1, "A", 2, some 10⟩] mlInit (by decide) (by decide)
    (by
      unfold modelAvailable
      rw [if_neg (by decide : ¬ loadFactorOf mlInit > 1/5),
          if_pos (show mlInit.model = none from rfl)]
      right
      exact ⟨rfl, by decide⟩)

end CWA
